import Mathlib

/-!
# CloudFlare DNS deployer (`cmd/devp2p/dns_cloudflare.go`)

A shallow embedding of `cloudflareClient.checkZone`, `cloudflareClient.deploy` and
`cloudflareClient.uploadRecords`, followed by the properties of the zone authorization
check and of the deployment gate.

Modelling conventions.

* A Go `string` is a `String`; `strings.HasSuffix` and `+` work on its character list.
* A Go `error` is its message (`GoError`); a returned `error` is `Option GoError`,
  `none` being `nil`.
* The CloudFlare API embedded in the client is a pair of response functions
  (`ZoneIDByName`, `ZoneDetails`): the provider answers deterministically.
* Calls that leave the function (log lines, provider requests, the entry into
  `uploadRecords`) are appended to a trace kept in `World`, next to the TXT records
  published in the zone.
* What the Go runtime leaves open or what lives in the standard library is a field of
  `GoRuntime`: the `%q` verb and the order in which `range` visits a map.
-/

namespace Cloudflare

/-- A Go error value, identified by its message. -/
structure GoError where
  msg : String
deriving DecidableEq, Repr

/-- The part of `cloudflare.Zone` that `checkZone` reads. -/
structure Zone where
  Name : String
  Permissions : List String
deriving DecidableEq, Repr

/-- The two methods of `*cloudflare.API` used by the client. -/
structure API where
  ZoneIDByName : String → Except GoError String
  ZoneDetails : String → Except GoError Zone

/-- The struct `cloudflareClient`: the embedded API and the zone identifier. -/
structure cloudflareClient where
  API : API
  zoneID : String

/-- A `dnsdisc.Tree`, seen through its only method used here, `ToTXT`. -/
structure Tree where
  ToTXT : String → List (String × String)

/-- What a call does outside the function: one entry of the trace. -/
inductive Event where
  | logInfo (msg : String)
  | zoneIDByName (name : String)
  | zoneDetails (zoneID : String)
  | uploadRecords (name : String) (records : List (String × String))
deriving DecidableEq, Repr

/-- The world outside the client: the TXT records of the zone at the provider
(name, content) and the trace of the calls made so far, oldest first. -/
structure World where
  txt : List (String × String)
  trace : List Event
deriving DecidableEq, Repr

/-- A Go `map[string]bool`, kept as an association list in key order. -/
abbrev BoolMap := List (String × Bool)

/-- What the source takes from the Go runtime and standard library without fixing it:
`quote` is the `%q` verb on a string, `rangeOrder` the order in which a `range` loop
visits the entries of a map (any rearrangement of the entries). -/
structure GoRuntime where
  quote : String → String
  rangeOrder : BoolMap → BoolMap
  rangeOrder_perm : ∀ m, List.Perm (rangeOrder m) m

/-- Go `strings.HasSuffix(s, suffix)`:
`len(s) >= len(suffix) && s[len(s)-len(suffix):] == suffix`. -/
def HasSuffix (s suffix : String) : Bool :=
  decide (s.data.length ≥ suffix.data.length) &&
    decide (s.data.drop (s.data.length - suffix.data.length) = suffix.data)

/-- Go `_, ok := m[k]`: whether the key is present. -/
def mapHas (m : BoolMap) (k : String) : Bool :=
  (m.lookup k).isSome

/-- Go `m[k] = v`: replaces the value of a present key, adds an absent key at its place
in key order. -/
def mapSet : BoolMap → String → Bool → BoolMap
  | [], k, v => [(k, v)]
  | (k', v') :: rest, k, v =>
    if k' = k then (k', v) :: rest
    else if k.data < k'.data then (k, v) :: (k', v') :: rest
    else (k', v') :: mapSet rest k v

/-- The verb `%v` on a `bool`. -/
def fmtBool (b : Bool) : String :=
  if b then "true" else "false"

/-- The entries of a map as `fmt` prints them: `key:value`, separated by blanks. -/
def fmtEntries : BoolMap → String
  | [] => ""
  | [(k, v)] => k ++ ":" ++ fmtBool v
  | (k, v) :: rest => k ++ ":" ++ fmtBool v ++ " " ++ fmtEntries rest

/-- The verb `%v` on a `map[string]bool`: `map[k1:v1 k2:v2]`, keys in sorted order
(the order in which a `BoolMap` is kept). -/
def fmtMap (m : BoolMap) : String :=
  "map[" ++ fmtEntries m ++ "]"

/-- The map literal `map[string]bool{"#zone:edit": false, "#zone:read": false}`. -/
def needPermsInit : BoolMap :=
  [("#zone:edit", false), ("#zone:read", false)]

/-- The loop `for _, perm := range zone.Permissions` of `checkZone`: a permission that
is a key of `needPerms` is set to `true`. -/
def markPerms (needPerms : BoolMap) : List String → BoolMap
  | [] => needPerms
  | perm :: rest =>
    if mapHas needPerms perm then markPerms (mapSet needPerms perm true) rest
    else markPerms needPerms rest

/-- The loop `for _, ok := range needPerms` of `checkZone` over the entries in the
order the runtime visits them: the first entry that is `false` returns `err`. -/
def rangeCheck (err : GoError) : BoolMap → Option GoError
  | [] => none
  | (_, ok) :: rest => if !ok then some err else rangeCheck err rest

/-- The error of line 88: the zone name does not match the name to be deployed. -/
def mismatchError (rt : GoRuntime) (zoneName name : String) : GoError :=
  ⟨"CloudFlare zone name " ++ rt.quote zoneName ++ " does not match name " ++
    rt.quote name ++ " to be deployed"⟩

/-- The error of line 98: a needed permission is not granted on the zone. -/
def permissionError (zoneID : String) (needPerms : BoolMap) : GoError :=
  ⟨"wrong permissions on zone " ++ zoneID ++ ": " ++ fmtMap needPerms⟩

/-- Lines 82 to 101 of `checkZone`: the client holds a zone identifier; fetch the
zone, compare its name with `name`, and look for the two permissions. -/
def checkZoneDetails (rt : GoRuntime) (c : cloudflareClient) (w : World) (name : String) :
    Option GoError × cloudflareClient × World :=
  let w1 : World :=
    { w with trace := w.trace ++
        [Event.logInfo ("Checking Permissions on zone " ++ c.zoneID),
         Event.zoneDetails c.zoneID] }
  match c.API.ZoneDetails c.zoneID with
  | .error err => (some err, c, w1)
  | .ok zone =>
    if !HasSuffix name ("." ++ zone.Name) then
      (some (mismatchError rt zone.Name name), c, w1)
    else
      let needPerms := markPerms needPermsInit zone.Permissions
      (rangeCheck (permissionError c.zoneID needPerms) (rt.rangeOrder needPerms), c, w1)

/-- The method `checkZone`: verifies permissions on the CloudFlare DNS zone for `name`.
Returns the error (or `nil`), the client and the world after the call. -/
def checkZone (rt : GoRuntime) (c : cloudflareClient) (w : World) (name : String) :
    Option GoError × cloudflareClient × World :=
  if c.zoneID = "" then
    let w1 : World :=
      { w with trace := w.trace ++
          [Event.logInfo ("Finding CloudFlare zone ID for " ++ name),
           Event.zoneIDByName name] }
    match c.API.ZoneIDByName name with
    | .error err => (some err, c, w1)
    | .ok id => checkZoneDetails rt { c with zoneID := id } w1 name
  else
    checkZoneDetails rt c w name

/-- The method `uploadRecords`: its body is `return nil`. The entry into the method is
recorded in the trace; the zone is not touched. -/
def uploadRecords (c : cloudflareClient) (w : World) (name : String)
    (records : List (String × String)) : Option GoError × cloudflareClient × World :=
  (none, c, { w with trace := w.trace ++ [Event.uploadRecords name records] })

/-- The method `deploy`: uploads the given tree to CloudFlare DNS. -/
def deploy (rt : GoRuntime) (c : cloudflareClient) (w : World) (name : String) (t : Tree) :
    Option GoError × cloudflareClient × World :=
  match checkZone rt c w name with
  | (some err, c1, w1) => (some err, c1, w1)
  | (none, c1, w1) =>
    let records := t.ToTXT name
    uploadRecords c1 w1 name records

/-- The zone identifier the client holds after lines 74 to 81 of `checkZone` (its own
when it is not empty, the looked-up one otherwise), or the error of the lookup. -/
def zoneIDAfterLookup (c : cloudflareClient) (name : String) : Except GoError String :=
  if c.zoneID = "" then c.API.ZoneIDByName name else .ok c.zoneID

/-- Two permission lists grant the same of the two needed capabilities. -/
def sameGrants (p q : List String) : Prop :=
  ("#zone:edit" ∈ p ↔ "#zone:edit" ∈ q) ∧ ("#zone:read" ∈ p ↔ "#zone:read" ∈ q)

/-- Two answers to `ZoneDetails` that differ at most in the permission list, and there
only outside the two needed capabilities. -/
def sameDetails : Except GoError Zone → Except GoError Zone → Prop
  | .error e1, .error e2 => e1 = e2
  | .ok z1, .ok z2 => z1.Name = z2.Name ∧ sameGrants z1.Permissions z2.Permissions
  | _, _ => False

/-! ## Concrete inputs -/

/-- A runtime that quotes with plain double quotes and visits maps in key order. -/
def rtForward : GoRuntime :=
  { quote := fun s => "\"" ++ s ++ "\""
    rangeOrder := fun m => m
    rangeOrder_perm := fun m => List.Perm.refl m }

/-- A runtime that visits maps in reverse key order. -/
def rtBackward : GoRuntime :=
  { quote := fun s => "\"" ++ s ++ "\""
    rangeOrder := fun m => m.reverse
    rangeOrder_perm := fun m => List.reverse_perm m }

/-- A provider with one zone, `example.com` with identifier `z1`, whose credential has
the permissions `perms`. -/
def apiExample (perms : List String) : API :=
  { ZoneIDByName := fun name =>
      if HasSuffix name "example.com" then .ok "z1"
      else .error ⟨"zone could not be found"⟩
    ZoneDetails := fun id =>
      if id = "z1" then .ok ⟨"example.com", perms⟩
      else .error ⟨"HTTP status 404"⟩ }

/-- The world before a run: two TXT records in the zone, nothing called yet. -/
def worldExample : World :=
  { txt := [("nodes.example.com", "enrtree-root:v1"), ("stale.nodes.example.com", "enr:old")]
    trace := [] }

end Cloudflare

namespace Cloudflare

/-! ## Lemmas on the helpers -/

theorem HasSuffix_iff (s t : String) : HasSuffix s t = true ↔ ∃ p : String, s = p ++ t := by
  unfold HasSuffix
  simp only [Bool.and_eq_true, decide_eq_true_eq]
  constructor
  · rintro ⟨_, hd⟩
    refine ⟨⟨s.data.take (s.data.length - t.data.length)⟩, ?_⟩
    apply String.ext
    rw [String.data_append]
    have h := List.take_append_drop (s.data.length - t.data.length) s.data
    rw [hd] at h
    exact h.symm
  · rintro ⟨p, rfl⟩
    simp [String.data_append]

theorem HasSuffix_dot_self (n : String) : HasSuffix n ("." ++ n) = false := by
  unfold HasSuffix
  have h : ("." ++ n).data.length = n.data.length + 1 := by
    rw [String.data_append]
    simp [Nat.add_comm]
  simp [h]

theorem markPerms_pair (perms : List String) (a b : Bool) :
    markPerms [("#zone:edit", a), ("#zone:read", b)] perms
      = [("#zone:edit", a || decide ("#zone:edit" ∈ perms)),
         ("#zone:read", b || decide ("#zone:read" ∈ perms))] := by
  induction perms generalizing a b with
  | nil => simp [markPerms]
  | cons perm rest ih =>
    have hne : ("#zone:edit" : String) ≠ "#zone:read" := by decide
    by_cases h1 : perm = "#zone:edit"
    · subst h1
      simp [markPerms, mapHas, mapSet, List.lookup, ih]
    · by_cases h2 : perm = "#zone:read"
      · subst h2
        have hlt : ¬ ("#zone:read" : String).data < ("#zone:edit" : String).data := by
          decide
        simp [markPerms, mapHas, mapSet, List.lookup, ih, hne, hne.symm, hlt]
      · have h1' : ¬ "#zone:edit" = perm := fun h => h1 h.symm
        have h2' : ¬ "#zone:read" = perm := fun h => h2 h.symm
        have hb1 : (perm == "#zone:edit") = false := by simp [h1]
        have hb2 : (perm == "#zone:read") = false := by simp [h2]
        simp [markPerms, mapHas, List.lookup, ih, h1', h2', hb1, hb2]

theorem markPerms_init (perms : List String) :
    markPerms needPermsInit perms
      = [("#zone:edit", decide ("#zone:edit" ∈ perms)),
         ("#zone:read", decide ("#zone:read" ∈ perms))] := by
  unfold needPermsInit
  rw [markPerms_pair]
  simp

theorem rangeCheck_none_iff (err : GoError) (m : BoolMap) :
    rangeCheck err m = none ↔ ∀ kv ∈ m, kv.2 = true := by
  induction m with
  | nil => simp [rangeCheck]
  | cons kv rest ih =>
    obtain ⟨k, ok⟩ := kv
    cases ok <;> simp [rangeCheck, ih]

theorem rangeCheck_none_or (err : GoError) (m : BoolMap) :
    rangeCheck err m = none ∨ rangeCheck err m = some err := by
  induction m with
  | nil => simp [rangeCheck]
  | cons kv rest ih =>
    obtain ⟨k, ok⟩ := kv
    cases ok <;> simp [rangeCheck, ih]

/-- The result of the second loop does not depend on the order of the visit. -/
theorem rangeCheck_rangeOrder (rt : GoRuntime) (err : GoError) (m : BoolMap) :
    rangeCheck err (rt.rangeOrder m)
      = if ∀ kv ∈ m, kv.2 = true then none else some err := by
  have hperm := rt.rangeOrder_perm m
  split
  · rename_i h
    rw [rangeCheck_none_iff]
    intro kv hkv
    exact h kv (hperm.mem_iff.mp hkv)
  · rename_i h
    rcases rangeCheck_none_or err (rt.rangeOrder m) with h0 | h0
    · exfalso
      apply h
      intro kv hkv
      exact (rangeCheck_none_iff err _).mp h0 kv (hperm.mem_iff.mpr hkv)
    · exact h0

/-- The outcome of the two permission loops of `checkZone`. -/
theorem permission_loops (rt : GoRuntime) (zoneID : String) (perms : List String) :
    rangeCheck (permissionError zoneID (markPerms needPermsInit perms))
        (rt.rangeOrder (markPerms needPermsInit perms))
      = if "#zone:edit" ∈ perms ∧ "#zone:read" ∈ perms then none
        else some (permissionError zoneID
          [("#zone:edit", decide ("#zone:edit" ∈ perms)),
           ("#zone:read", decide ("#zone:read" ∈ perms))]) := by
  rw [rangeCheck_rangeOrder, markPerms_init]
  simp

/-! ## Lemmas on `checkZone` -/

theorem checkZoneDetails_client (rt : GoRuntime) (c : cloudflareClient) (w : World)
    (name : String) : (checkZoneDetails rt c w name).2.1 = c := by
  unfold checkZoneDetails
  cases c.API.ZoneDetails c.zoneID with
  | error e => rfl
  | ok z => dsimp only; split <;> rfl

theorem checkZoneDetails_world (rt : GoRuntime) (c : cloudflareClient) (w : World)
    (name : String) :
    (checkZoneDetails rt c w name).2.2
      = { w with trace := w.trace ++
            [Event.logInfo ("Checking Permissions on zone " ++ c.zoneID),
             Event.zoneDetails c.zoneID] } := by
  unfold checkZoneDetails
  cases c.API.ZoneDetails c.zoneID with
  | error e => rfl
  | ok z => dsimp only; split <;> rfl

theorem checkZoneDetails_err_of_error (rt : GoRuntime) (c : cloudflareClient) (w : World)
    (name : String) (e : GoError) (h : c.API.ZoneDetails c.zoneID = .error e) :
    (checkZoneDetails rt c w name).1 = some e := by
  unfold checkZoneDetails
  rw [h]

theorem checkZoneDetails_err_of_mismatch (rt : GoRuntime) (c : cloudflareClient) (w : World)
    (name : String) (z : Zone) (h : c.API.ZoneDetails c.zoneID = .ok z)
    (hs : HasSuffix name ("." ++ z.Name) = false) :
    (checkZoneDetails rt c w name).1 = some (mismatchError rt z.Name name) := by
  unfold checkZoneDetails
  rw [h]
  simp [hs]

theorem checkZoneDetails_err_of_match (rt : GoRuntime) (c : cloudflareClient) (w : World)
    (name : String) (z : Zone) (h : c.API.ZoneDetails c.zoneID = .ok z)
    (hs : HasSuffix name ("." ++ z.Name) = true) :
    (checkZoneDetails rt c w name).1
      = if "#zone:edit" ∈ z.Permissions ∧ "#zone:read" ∈ z.Permissions then none
        else some (permissionError c.zoneID
          [("#zone:edit", decide ("#zone:edit" ∈ z.Permissions)),
           ("#zone:read", decide ("#zone:read" ∈ z.Permissions))]) := by
  unfold checkZoneDetails
  rw [h]
  simp only [hs, Bool.not_true, Bool.false_eq_true, if_false]
  exact permission_loops rt c.zoneID z.Permissions

theorem checkZone_of_lookup_error (rt : GoRuntime) (c : cloudflareClient) (w : World)
    (name : String) (e : GoError) (h0 : c.zoneID = "")
    (h : c.API.ZoneIDByName name = .error e) :
    checkZone rt c w name
      = (some e, c, { w with trace := w.trace ++
            [Event.logInfo ("Finding CloudFlare zone ID for " ++ name),
             Event.zoneIDByName name] }) := by
  unfold checkZone
  rw [if_pos h0, h]

theorem checkZone_of_lookup_ok (rt : GoRuntime) (c : cloudflareClient) (w : World)
    (name : String) (id : String) (h0 : c.zoneID = "")
    (h : c.API.ZoneIDByName name = .ok id) :
    checkZone rt c w name
      = checkZoneDetails rt { c with zoneID := id }
          { w with trace := w.trace ++
            [Event.logInfo ("Finding CloudFlare zone ID for " ++ name),
             Event.zoneIDByName name] } name := by
  unfold checkZone
  rw [if_pos h0, h]

theorem checkZone_of_zoneID (rt : GoRuntime) (c : cloudflareClient) (w : World)
    (name : String) (h0 : c.zoneID ≠ "") :
    checkZone rt c w name = checkZoneDetails rt c w name := by
  unfold checkZone
  rw [if_neg h0]

/-- With the zone identifier resolved to `id`, the error of `checkZone` is the one
of lines 82 to 101 run with `id`, in some world. -/
theorem checkZone_err_resolved (rt : GoRuntime) (c : cloudflareClient) (w : World)
    (name : String) (id : String) (h : zoneIDAfterLookup c name = .ok id) :
    ∃ w1, (checkZone rt c w name).1
      = (checkZoneDetails rt { c with zoneID := id } w1 name).1 := by
  unfold zoneIDAfterLookup at h
  by_cases h0 : c.zoneID = ""
  · rw [if_pos h0] at h
    exact ⟨_, by rw [checkZone_of_lookup_ok rt c w name id h0 h]⟩
  · rw [if_neg h0] at h
    have hid : c.zoneID = id := by injection h
    subst hid
    exact ⟨w, by rw [checkZone_of_zoneID rt c w name h0]⟩

theorem checkZone_err_of_details_error (rt : GoRuntime) (c : cloudflareClient) (w : World)
    (name : String) (id : String) (e : GoError)
    (h : zoneIDAfterLookup c name = .ok id) (hz : c.API.ZoneDetails id = .error e) :
    (checkZone rt c w name).1 = some e := by
  obtain ⟨w1, hw⟩ := checkZone_err_resolved rt c w name id h
  rw [hw]
  exact checkZoneDetails_err_of_error rt _ w1 name e hz

theorem checkZone_err_of_mismatch (rt : GoRuntime) (c : cloudflareClient) (w : World)
    (name : String) (id : String) (z : Zone)
    (h : zoneIDAfterLookup c name = .ok id) (hz : c.API.ZoneDetails id = .ok z)
    (hs : HasSuffix name ("." ++ z.Name) = false) :
    (checkZone rt c w name).1 = some (mismatchError rt z.Name name) := by
  obtain ⟨w1, hw⟩ := checkZone_err_resolved rt c w name id h
  rw [hw]
  exact checkZoneDetails_err_of_mismatch rt _ w1 name z hz hs

theorem checkZone_err_of_match (rt : GoRuntime) (c : cloudflareClient) (w : World)
    (name : String) (id : String) (z : Zone)
    (h : zoneIDAfterLookup c name = .ok id) (hz : c.API.ZoneDetails id = .ok z)
    (hs : HasSuffix name ("." ++ z.Name) = true) :
    (checkZone rt c w name).1
      = if "#zone:edit" ∈ z.Permissions ∧ "#zone:read" ∈ z.Permissions then none
        else some (permissionError id
          [("#zone:edit", decide ("#zone:edit" ∈ z.Permissions)),
           ("#zone:read", decide ("#zone:read" ∈ z.Permissions))]) := by
  obtain ⟨w1, hw⟩ := checkZone_err_resolved rt c w name id h
  rw [hw]
  exact checkZoneDetails_err_of_match rt _ w1 name z hz hs

/-- When the lookup fails, so does `checkZone`, with the error of the lookup. -/
theorem checkZone_err_of_unresolved (rt : GoRuntime) (c : cloudflareClient) (w : World)
    (name : String) (e : GoError) (h : zoneIDAfterLookup c name = .error e) :
    (checkZone rt c w name).1 = some e := by
  unfold zoneIDAfterLookup at h
  by_cases h0 : c.zoneID = ""
  · rw [if_pos h0] at h
    rw [checkZone_of_lookup_error rt c w name e h0 h]
  · rw [if_neg h0] at h
    cases h

/-- The events `checkZone` adds to the trace are log lines and the two read-only
requests; the TXT records of the zone are left alone. -/
theorem checkZone_world (rt : GoRuntime) (c : cloudflareClient) (w : World) (name : String) :
    (checkZone rt c w name).2.2.txt = w.txt ∧
    ∃ evs, (checkZone rt c w name).2.2.trace = w.trace ++ evs ∧
      ∀ n r, Event.uploadRecords n r ∉ evs := by
  unfold checkZone
  split
  · cases hl : c.API.ZoneIDByName name with
    | error e =>
      exact ⟨rfl, _, rfl, by simp⟩
    | ok id =>
      dsimp only
      rw [checkZoneDetails_world]
      refine ⟨rfl, _, List.append_assoc _ _ _, by simp⟩
  · rw [checkZoneDetails_world]
    exact ⟨rfl, _, rfl, by simp⟩

/-- The error of lines 82 to 101 does not depend on the world they run in. -/
theorem checkZoneDetails_err_world (rt : GoRuntime) (c : cloudflareClient) (w w1 : World)
    (name : String) :
    (checkZoneDetails rt c w name).1 = (checkZoneDetails rt c w1 name).1 := by
  unfold checkZoneDetails
  cases c.API.ZoneDetails c.zoneID with
  | error e => rfl
  | ok z => dsimp only; split <;> rfl

/-- A failed `checkZone` is all that `deploy` does. -/
theorem deploy_of_checkZone_error (rt : GoRuntime) (c : cloudflareClient) (w : World)
    (name : String) (t : Tree) (err : GoError)
    (h : (checkZone rt c w name).1 = some err) :
    deploy rt c w name t = checkZone rt c w name := by
  unfold deploy
  rcases hcz : checkZone rt c w name with ⟨r, c1, w1⟩
  rw [hcz] at h
  dsimp only at h
  subst h
  rfl

/-- A zone whose permission list lacks one of the two markers fails `checkZone`. -/
theorem checkZone_fails_of_missing (rt : GoRuntime) (c : cloudflareClient) (w : World)
    (name : String) (id : String) (z : Zone)
    (h : zoneIDAfterLookup c name = .ok id) (hz : c.API.ZoneDetails id = .ok z)
    (hmiss : "#zone:edit" ∉ z.Permissions ∨ "#zone:read" ∉ z.Permissions) :
    ∃ err, (checkZone rt c w name).1 = some err := by
  cases hs : HasSuffix name ("." ++ z.Name) with
  | false => exact ⟨_, checkZone_err_of_mismatch rt c w name id z h hz hs⟩
  | true =>
    have hnot : ¬ ("#zone:edit" ∈ z.Permissions ∧ "#zone:read" ∈ z.Permissions) := by
      rintro ⟨h1, h2⟩
      rcases hmiss with h3 | h3
      · exact h3 h1
      · exact h3 h2
    rw [checkZone_err_of_match rt c w name id z h hz hs, if_neg hnot]
    exact ⟨_, rfl⟩

theorem suffix_of_accepted (name zoneName : String)
    (hs : HasSuffix name ("." ++ zoneName) = true) :
    ∃ p : String, name = p ++ "." ++ zoneName := by
  obtain ⟨p, hp⟩ := (HasSuffix_iff name ("." ++ zoneName)).mp hs
  exact ⟨p, by rw [hp, String.append_assoc]⟩

theorem not_accepted_of_no_suffix (name zoneName : String)
    (hs : ¬ ∃ p : String, name = p ++ "." ++ zoneName) :
    HasSuffix name ("." ++ zoneName) = false := by
  cases h : HasSuffix name ("." ++ zoneName) with
  | false => rfl
  | true => exact absurd (suffix_of_accepted name zoneName h) hs

/-- The message of the permission error, written out. -/
theorem permissionError_msg (zoneID : String) (a b : Bool) :
    (permissionError zoneID [("#zone:edit", a), ("#zone:read", b)]).msg
      = "wrong permissions on zone " ++ zoneID ++ ": map[#zone:edit:" ++ fmtBool a ++
          " #zone:read:" ++ fmtBool b ++ "]" := by
  apply String.ext
  simp [permissionError, fmtMap, fmtEntries, String.data_append]

theorem mismatchError_quote (rt1 rt2 : GoRuntime) (hq : rt1.quote = rt2.quote)
    (zoneName name : String) :
    mismatchError rt1 zoneName name = mismatchError rt2 zoneName name := by
  unfold mismatchError
  rw [hq]

theorem permission_result_congr (id : String) (p q : List String) (hg : sameGrants p q) :
    (if "#zone:edit" ∈ p ∧ "#zone:read" ∈ p then none
      else some (permissionError id
        [("#zone:edit", decide ("#zone:edit" ∈ p)), ("#zone:read", decide ("#zone:read" ∈ p))]))
    = (if "#zone:edit" ∈ q ∧ "#zone:read" ∈ q then none
      else some (permissionError id
        [("#zone:edit", decide ("#zone:edit" ∈ q)),
         ("#zone:read", decide ("#zone:read" ∈ q))])) := by
  obtain ⟨h1, h2⟩ := hg
  have e1 : decide ("#zone:edit" ∈ p) = decide ("#zone:edit" ∈ q) := decide_eq_decide.mpr h1
  have e2 : decide ("#zone:read" ∈ p) = decide ("#zone:read" ∈ q) := decide_eq_decide.mpr h2
  rw [e1, e2]
  by_cases hq : "#zone:edit" ∈ q ∧ "#zone:read" ∈ q
  · rw [if_pos hq, if_pos ⟨h1.mpr hq.1, h2.mpr hq.2⟩]
  · rw [if_neg hq, if_neg (fun hp => hq ⟨h1.mp hp.1, h2.mp hp.2⟩)]

/-- Lines 82 to 101 give the same error for two clients with the same zone identifier
whose providers answer alike up to permissions other than the two markers. -/
theorem checkZoneDetails_err_congr (rt1 rt2 : GoRuntime) (c1 c2 : cloudflareClient)
    (w1 w2 : World) (name : String) (hq : rt1.quote = rt2.quote)
    (hid : c1.zoneID = c2.zoneID)
    (hd : sameDetails (c1.API.ZoneDetails c1.zoneID) (c2.API.ZoneDetails c2.zoneID)) :
    (checkZoneDetails rt1 c1 w1 name).1 = (checkZoneDetails rt2 c2 w2 name).1 := by
  cases hz1 : c1.API.ZoneDetails c1.zoneID with
  | error e1 =>
    cases hz2 : c2.API.ZoneDetails c2.zoneID with
    | error e2 =>
      rw [hz1, hz2] at hd
      rw [checkZoneDetails_err_of_error rt1 c1 w1 name e1 hz1,
        checkZoneDetails_err_of_error rt2 c2 w2 name e2 hz2]
      exact congrArg some hd
    | ok z2 =>
      rw [hz1, hz2] at hd
      exact absurd hd (by simp [sameDetails])
  | ok z1 =>
    cases hz2 : c2.API.ZoneDetails c2.zoneID with
    | error e2 =>
      rw [hz1, hz2] at hd
      exact absurd hd (by simp [sameDetails])
    | ok z2 =>
      rw [hz1, hz2] at hd
      obtain ⟨hn, hg⟩ := hd
      cases hs : HasSuffix name ("." ++ z1.Name) with
      | false =>
        rw [checkZoneDetails_err_of_mismatch rt1 c1 w1 name z1 hz1 hs,
          checkZoneDetails_err_of_mismatch rt2 c2 w2 name z2 hz2 (hn ▸ hs),
          mismatchError_quote rt1 rt2 hq, hn]
      | true =>
        rw [checkZoneDetails_err_of_match rt1 c1 w1 name z1 hz1 hs,
          checkZoneDetails_err_of_match rt2 c2 w2 name z2 hz2 (hn ▸ hs), hid]
        exact permission_result_congr c2.zoneID _ _ hg

/-! ## The claims -/

/-- C1. Authorization gating: when `checkZone` returns an error, `deploy` returns that
same error, leaves the TXT records of the zone as they were and never enters
`uploadRecords`; this is so in particular when the permission list of the fetched zone
lacks the edit marker or the read marker. -/
theorem deploy_gated_by_checkZone (rt : GoRuntime) (c : cloudflareClient) (w : World)
    (name : String) (t : Tree) :
    (∀ err, (checkZone rt c w name).1 = some err →
      (deploy rt c w name t).1 = some err ∧
      (deploy rt c w name t).2.2.txt = w.txt ∧
      ∃ evs, (deploy rt c w name t).2.2.trace = w.trace ++ evs ∧
        ∀ n r, Event.uploadRecords n r ∉ evs) ∧
    (∀ id z, zoneIDAfterLookup c name = .ok id → c.API.ZoneDetails id = .ok z →
      ("#zone:edit" ∉ z.Permissions ∨ "#zone:read" ∉ z.Permissions) →
      ∃ err, (checkZone rt c w name).1 = some err ∧
        (deploy rt c w name t).1 = some err ∧
        (deploy rt c w name t).2.2.txt = w.txt ∧
        ∃ evs, (deploy rt c w name t).2.2.trace = w.trace ++ evs ∧
          ∀ n r, Event.uploadRecords n r ∉ evs) := by
  have gate : ∀ err, (checkZone rt c w name).1 = some err →
      (deploy rt c w name t).1 = some err ∧
      (deploy rt c w name t).2.2.txt = w.txt ∧
      ∃ evs, (deploy rt c w name t).2.2.trace = w.trace ++ evs ∧
        ∀ n r, Event.uploadRecords n r ∉ evs := by
    intro err h
    rw [deploy_of_checkZone_error rt c w name t err h]
    exact ⟨h, checkZone_world rt c w name⟩
  refine ⟨gate, ?_⟩
  intro id z h hz hmiss
  obtain ⟨err, herr⟩ := checkZone_fails_of_missing rt c w name id z h hz hmiss
  exact ⟨err, herr, gate err herr⟩

/-- C1, at a credential that may read but not edit the zone `example.com`. -/
theorem deploy_gated_by_checkZone_witness :
    ∃ err, (checkZone rtForward ⟨apiExample ["#zone:read"], ""⟩ worldExample
        "nodes.example.com").1 = some err ∧
      (deploy rtForward ⟨apiExample ["#zone:read"], ""⟩ worldExample
        "nodes.example.com" ⟨fun n => [(n, "enrtree-root:v1")]⟩).1 = some err ∧
      (deploy rtForward ⟨apiExample ["#zone:read"], ""⟩ worldExample
        "nodes.example.com" ⟨fun n => [(n, "enrtree-root:v1")]⟩).2.2.txt
          = worldExample.txt ∧
      ∃ evs, (deploy rtForward ⟨apiExample ["#zone:read"], ""⟩ worldExample
        "nodes.example.com" ⟨fun n => [(n, "enrtree-root:v1")]⟩).2.2.trace
          = worldExample.trace ++ evs ∧
        ∀ n r, Event.uploadRecords n r ∉ evs :=
  (deploy_gated_by_checkZone rtForward ⟨apiExample ["#zone:read"], ""⟩ worldExample
    "nodes.example.com" ⟨fun n => [(n, "enrtree-root:v1")]⟩).2 "z1"
    ⟨"example.com", ["#zone:read"]⟩ rfl rfl (Or.inl (by decide))

/-- C2. Permission check: with the zone resolved, its details fetched and the name
accepted by the zone-name check, `checkZone` succeeds if and only if the permission
list holds both `#zone:edit` and `#zone:read`; when one is absent it returns an
error. -/
theorem checkZone_succeeds_iff_both_permissions (rt : GoRuntime) (c : cloudflareClient)
    (w : World) (name : String) (id : String) (z : Zone)
    (h : zoneIDAfterLookup c name = .ok id) (hz : c.API.ZoneDetails id = .ok z)
    (hs : HasSuffix name ("." ++ z.Name) = true) :
    ((checkZone rt c w name).1 = none ↔
      ("#zone:edit" ∈ z.Permissions ∧ "#zone:read" ∈ z.Permissions)) ∧
    (¬ ("#zone:edit" ∈ z.Permissions ∧ "#zone:read" ∈ z.Permissions) →
      ∃ err, (checkZone rt c w name).1 = some err) := by
  rw [checkZone_err_of_match rt c w name id z h hz hs]
  constructor
  · constructor
    · intro h1
      by_contra h2
      rw [if_neg h2] at h1
      cases h1
    · intro h1
      rw [if_pos h1]
  · intro h1
    rw [if_neg h1]
    exact ⟨_, rfl⟩

/-- C2, at a credential holding both permissions on `example.com`. -/
theorem checkZone_succeeds_iff_both_permissions_witness :
    ((checkZone rtBackward ⟨apiExample ["#zone:read", "#zone:edit"], ""⟩ worldExample
        "nodes.example.com").1 = none ↔
      ("#zone:edit" ∈ ["#zone:read", "#zone:edit"] ∧
        "#zone:read" ∈ ["#zone:read", "#zone:edit"])) ∧
    (¬ ("#zone:edit" ∈ ["#zone:read", "#zone:edit"] ∧
        "#zone:read" ∈ ["#zone:read", "#zone:edit"]) →
      ∃ err, (checkZone rtBackward ⟨apiExample ["#zone:read", "#zone:edit"], ""⟩
        worldExample "nodes.example.com").1 = some err) :=
  checkZone_succeeds_iff_both_permissions rtBackward
    ⟨apiExample ["#zone:read", "#zone:edit"], ""⟩ worldExample "nodes.example.com" "z1"
    ⟨"example.com", ["#zone:read", "#zone:edit"]⟩ rfl rfl (by decide)

/-- C3. Wrong-zone protection: when `checkZone` succeeds, `name` is equal to, or ends
with `.` followed by, the domain name of the zone whose details were fetched; a name
that is neither gets the zone-mismatch error, whatever the permission list holds. -/
theorem checkZone_wrong_zone_protection (rt : GoRuntime) (c : cloudflareClient)
    (w : World) (name : String) :
    ((checkZone rt c w name).1 = none →
      ∃ id z, zoneIDAfterLookup c name = .ok id ∧ c.API.ZoneDetails id = .ok z ∧
        (name = z.Name ∨ ∃ p : String, name = p ++ "." ++ z.Name)) ∧
    (∀ id z, zoneIDAfterLookup c name = .ok id → c.API.ZoneDetails id = .ok z →
      name ≠ z.Name → (¬ ∃ p : String, name = p ++ "." ++ z.Name) →
      (checkZone rt c w name).1 = some (mismatchError rt z.Name name)) := by
  constructor
  · intro hok
    cases h : zoneIDAfterLookup c name with
    | error e =>
      rw [checkZone_err_of_unresolved rt c w name e h] at hok
      cases hok
    | ok id =>
      cases hz : c.API.ZoneDetails id with
      | error e =>
        rw [checkZone_err_of_details_error rt c w name id e h hz] at hok
        cases hok
      | ok z =>
        cases hs : HasSuffix name ("." ++ z.Name) with
        | false =>
          rw [checkZone_err_of_mismatch rt c w name id z h hz hs] at hok
          cases hok
        | true =>
          exact ⟨id, z, rfl, hz, Or.inr (suffix_of_accepted name z.Name hs)⟩
  · intro id z h hz _ hsub
    exact checkZone_err_of_mismatch rt c w name id z h hz
      (not_accepted_of_no_suffix name z.Name hsub)

/-- C3, at a name inside and at a name outside the zone `example.com`. -/
theorem checkZone_wrong_zone_protection_witness :
    (∃ id z, zoneIDAfterLookup ⟨apiExample ["#zone:edit", "#zone:read"], "z1"⟩
          "nodes.example.com" = .ok id ∧
        (apiExample ["#zone:edit", "#zone:read"]).ZoneDetails id = .ok z ∧
        ("nodes.example.com" = z.Name ∨
          ∃ p : String, "nodes.example.com" = p ++ "." ++ z.Name)) ∧
    (checkZone rtForward ⟨apiExample ["#zone:edit", "#zone:read"], "z1"⟩ worldExample
        "nodes.example.org").1
      = some (mismatchError rtForward "example.com" "nodes.example.org") :=
  ⟨(checkZone_wrong_zone_protection rtForward
    ⟨apiExample ["#zone:edit", "#zone:read"], "z1"⟩ worldExample "nodes.example.com").1
    (by decide),
  (checkZone_wrong_zone_protection rtForward
    ⟨apiExample ["#zone:edit", "#zone:read"], "z1"⟩ worldExample "nodes.example.org").2
    "z1" ⟨"example.com", ["#zone:edit", "#zone:read"]⟩ rfl rfl (by decide)
    (fun hex => by
      have hs : HasSuffix "nodes.example.org" ("." ++ "example.com") = true := by
        obtain ⟨p, hp⟩ := hex
        exact (HasSuffix_iff _ _).mpr ⟨p, by rw [hp, String.append_assoc]⟩
      revert hs
      decide)⟩

/-- C4, refuted: with the zone `example.com`, both permissions granted and the name
`example.com` itself, `checkZone` returns the zone-mismatch error. -/
theorem checkZone_zone_apex_counterexample :
    (apiExample ["#zone:edit", "#zone:read"]).ZoneDetails "z1"
      = .ok ⟨"example.com", ["#zone:edit", "#zone:read"]⟩ ∧
    (checkZone rtForward ⟨apiExample ["#zone:edit", "#zone:read"], "z1"⟩ worldExample
        "example.com").1
      = some ⟨"CloudFlare zone name \"example.com\" does not match name " ++
          "\"example.com\" to be deployed"⟩ ∧
    ¬ (checkZone rtForward ⟨apiExample ["#zone:edit", "#zone:read"], "z1"⟩ worldExample
        "example.com").1 = none := by
  refine ⟨rfl, ?_, ?_⟩ <;> decide

/-- C4, amended. The zone apex is rejected: when the domain name of the fetched zone is
exactly `name`, `checkZone` returns the zone-mismatch error, whatever the permission
list holds; `checkZone` succeeds only for a name that ends with `.` followed by the
domain name of the zone. -/
theorem checkZone_zone_apex_rejected (rt : GoRuntime) (c : cloudflareClient) (w : World)
    (name : String) (id : String) (z : Zone)
    (h : zoneIDAfterLookup c name = .ok id) (hz : c.API.ZoneDetails id = .ok z) :
    (z.Name = name →
      (checkZone rt c w name).1 = some (mismatchError rt z.Name name)) ∧
    ((checkZone rt c w name).1 = none → ∃ p : String, name = p ++ "." ++ z.Name) := by
  constructor
  · intro hname
    apply checkZone_err_of_mismatch rt c w name id z h hz
    rw [hname]
    exact HasSuffix_dot_self name
  · intro hok
    cases hs : HasSuffix name ("." ++ z.Name) with
    | false =>
      rw [checkZone_err_of_mismatch rt c w name id z h hz hs] at hok
      cases hok
    | true => exact suffix_of_accepted name z.Name hs

/-- C4 amended, at the apex of the zone `example.com` and at a name below it. -/
theorem checkZone_zone_apex_rejected_witness :
    (checkZone rtBackward ⟨apiExample ["#zone:edit", "#zone:read"], ""⟩ worldExample
        "example.com").1
      = some (mismatchError rtBackward "example.com" "example.com") ∧
    ∃ p : String, "nodes.example.com" = p ++ "." ++ "example.com" :=
  ⟨(checkZone_zone_apex_rejected rtBackward ⟨apiExample ["#zone:edit", "#zone:read"], ""⟩
    worldExample "example.com" "z1" ⟨"example.com", ["#zone:edit", "#zone:read"]⟩
    rfl rfl).1 rfl,
  (checkZone_zone_apex_rejected rtBackward ⟨apiExample ["#zone:edit", "#zone:read"], ""⟩
    worldExample "nodes.example.com" "z1" ⟨"example.com", ["#zone:edit", "#zone:read"]⟩
    rfl rfl).2 (by decide)⟩

/-- C5. Zone identifier resolution: a client with an empty zone identifier asks the
lookup for `name` first and, when the lookup fails, returns that error, with no request
for zone details and the identifier still empty; a client with a zone identifier never
asks the lookup (any other lookup function gives the same result) and requests the
details of exactly that identifier. -/
theorem checkZone_zone_id_resolution (rt : GoRuntime) (c : cloudflareClient) (w : World)
    (name : String) :
    (c.zoneID = "" →
      (∃ evs, (checkZone rt c w name).2.2.trace
        = w.trace ++ [Event.logInfo ("Finding CloudFlare zone ID for " ++ name),
            Event.zoneIDByName name] ++ evs) ∧
      (∀ e, c.API.ZoneIDByName name = .error e →
        (checkZone rt c w name).1 = some e ∧
        (checkZone rt c w name).2.1.zoneID = "" ∧
        (checkZone rt c w name).2.2.trace
          = w.trace ++ [Event.logInfo ("Finding CloudFlare zone ID for " ++ name),
              Event.zoneIDByName name])) ∧
    (c.zoneID ≠ "" →
      (∀ lookup : String → Except GoError String,
        (checkZone rt ⟨⟨lookup, c.API.ZoneDetails⟩, c.zoneID⟩ w name).1
            = (checkZone rt c w name).1 ∧
        (checkZone rt ⟨⟨lookup, c.API.ZoneDetails⟩, c.zoneID⟩ w name).2.1.zoneID
            = (checkZone rt c w name).2.1.zoneID ∧
        (checkZone rt ⟨⟨lookup, c.API.ZoneDetails⟩, c.zoneID⟩ w name).2.2
            = (checkZone rt c w name).2.2) ∧
      (checkZone rt c w name).2.2.trace
        = w.trace ++ [Event.logInfo ("Checking Permissions on zone " ++ c.zoneID),
            Event.zoneDetails c.zoneID]) := by
  constructor
  · intro h0
    constructor
    · cases hl : c.API.ZoneIDByName name with
      | error e =>
        rw [checkZone_of_lookup_error rt c w name e h0 hl]
        exact ⟨[], by simp⟩
      | ok id =>
        rw [checkZone_of_lookup_ok rt c w name id h0 hl, checkZoneDetails_world]
        exact ⟨_, rfl⟩
    · intro e hl
      rw [checkZone_of_lookup_error rt c w name e h0 hl]
      exact ⟨rfl, h0, rfl⟩
  · intro h0
    constructor
    · intro lookup
      rw [checkZone_of_zoneID rt c w name h0,
        checkZone_of_zoneID rt ⟨⟨lookup, c.API.ZoneDetails⟩, c.zoneID⟩ w name h0]
      refine ⟨?_, ?_, ?_⟩
      · unfold checkZoneDetails
        dsimp only
        cases c.API.ZoneDetails c.zoneID with
        | error e => rfl
        | ok z => dsimp only; split <;> rfl
      · rw [checkZoneDetails_client, checkZoneDetails_client]
      · rw [checkZoneDetails_world, checkZoneDetails_world]
    · rw [checkZone_of_zoneID rt c w name h0, checkZoneDetails_world]

/-- C5, at a client without a zone identifier and a name the provider does not know,
and at a client configured with the identifier `z1`. -/
theorem checkZone_zone_id_resolution_witness :
    ((checkZone rtForward ⟨apiExample ["#zone:edit", "#zone:read"], ""⟩ worldExample
        "nodes.example.org").1 = some ⟨"zone could not be found"⟩ ∧
      (checkZone rtForward ⟨apiExample ["#zone:edit", "#zone:read"], ""⟩ worldExample
        "nodes.example.org").2.1.zoneID = "" ∧
      (checkZone rtForward ⟨apiExample ["#zone:edit", "#zone:read"], ""⟩ worldExample
        "nodes.example.org").2.2.trace
        = worldExample.trace ++
          [Event.logInfo ("Finding CloudFlare zone ID for " ++ "nodes.example.org"),
            Event.zoneIDByName "nodes.example.org"]) ∧
    (checkZone rtForward ⟨apiExample ["#zone:edit", "#zone:read"], "z1"⟩ worldExample
        "nodes.example.com").2.2.trace
      = worldExample.trace ++ [Event.logInfo ("Checking Permissions on zone " ++ "z1"),
          Event.zoneDetails "z1"] :=
  ⟨((checkZone_zone_id_resolution rtForward ⟨apiExample ["#zone:edit", "#zone:read"], ""⟩
      worldExample "nodes.example.org").1 rfl).2 ⟨"zone could not be found"⟩ rfl,
   ((checkZone_zone_id_resolution rtForward
      ⟨apiExample ["#zone:edit", "#zone:read"], "z1"⟩
      worldExample "nodes.example.com").2 (by decide)).2⟩

/-- C6, refuted: a client without a zone identifier, checked against a provider that
knows the zone of the name, holds the identifier `z1` afterwards. -/
theorem checkZone_client_unchanged_counterexample :
    (⟨apiExample ["#zone:edit", "#zone:read"], ""⟩ : cloudflareClient).zoneID = "" ∧
    (checkZone rtForward ⟨apiExample ["#zone:edit", "#zone:read"], ""⟩ worldExample
        "nodes.example.com").1 = none ∧
    (checkZone rtForward ⟨apiExample ["#zone:edit", "#zone:read"], ""⟩ worldExample
        "nodes.example.com").2.1.zoneID = "z1" ∧
    (checkZone rtForward ⟨apiExample ["#zone:edit", "#zone:read"], ""⟩ worldExample
        "nodes.example.com").2.1.zoneID
      ≠ (⟨apiExample ["#zone:edit", "#zone:read"], ""⟩ : cloudflareClient).zoneID := by
  refine ⟨rfl, ?_, ?_, ?_⟩ <;> decide

/-- C6, amended. `checkZone` changes nothing of the client but its zone identifier, and
that only when it was empty and the lookup succeeds: the client then holds the looked-up
identifier, whether `checkZone` goes on to succeed or to fail. A client with a zone
identifier, and one whose lookup fails, is after the call as it was before. -/
theorem checkZone_client_frame (rt : GoRuntime) (c : cloudflareClient) (w : World)
    (name : String) :
    (c.zoneID ≠ "" → (checkZone rt c w name).2.1 = c) ∧
    (∀ e, c.zoneID = "" → c.API.ZoneIDByName name = .error e →
      (checkZone rt c w name).2.1 = c) ∧
    (∀ id, c.zoneID = "" → c.API.ZoneIDByName name = .ok id →
      (checkZone rt c w name).2.1 = { c with zoneID := id }) := by
  refine ⟨?_, ?_, ?_⟩
  · intro h0
    rw [checkZone_of_zoneID rt c w name h0, checkZoneDetails_client]
  · intro e h0 hl
    rw [checkZone_of_lookup_error rt c w name e h0 hl]
  · intro id h0 hl
    rw [checkZone_of_lookup_ok rt c w name id h0 hl, checkZoneDetails_client]

/-- C6 amended, at a configured client, a failing lookup and a successful lookup. -/
theorem checkZone_client_frame_witness :
    (checkZone rtForward ⟨apiExample ["#zone:read"], "z1"⟩ worldExample
        "nodes.example.com").2.1 = ⟨apiExample ["#zone:read"], "z1"⟩ ∧
    (checkZone rtForward ⟨apiExample ["#zone:read"], ""⟩ worldExample
        "nodes.example.org").2.1 = ⟨apiExample ["#zone:read"], ""⟩ ∧
    (checkZone rtForward ⟨apiExample ["#zone:read"], ""⟩ worldExample
        "nodes.example.com").2.1 = ⟨apiExample ["#zone:read"], "z1"⟩ :=
  ⟨(checkZone_client_frame rtForward ⟨apiExample ["#zone:read"], "z1"⟩ worldExample
      "nodes.example.com").1 (by decide),
   (checkZone_client_frame rtForward ⟨apiExample ["#zone:read"], ""⟩ worldExample
      "nodes.example.org").2.1 ⟨"zone could not be found"⟩ rfl rfl,
   (checkZone_client_frame rtForward ⟨apiExample ["#zone:read"], ""⟩ worldExample
      "nodes.example.com").2.2 "z1" rfl rfl⟩

/-- C7. `checkZone` is idempotent: on the client left by a first call, and in whatever
world (the one left by the first call included), a second call returns what the first
returned (success, or the same error) and leaves the client as the first left it. -/
theorem checkZone_idempotent (rt : GoRuntime) (c : cloudflareClient) (w : World)
    (name : String) :
    ∀ w1 : World,
      (checkZone rt (checkZone rt c w name).2.1 w1 name).1 = (checkZone rt c w name).1 ∧
      (checkZone rt (checkZone rt c w name).2.1 w1 name).2.1
        = (checkZone rt c w name).2.1 := by
  intro w1
  by_cases h0 : c.zoneID = ""
  · cases hl : c.API.ZoneIDByName name with
    | error e =>
      rw [checkZone_of_lookup_error rt c w name e h0 hl]
      dsimp only
      rw [checkZone_of_lookup_error rt c w1 name e h0 hl]
      exact ⟨rfl, rfl⟩
    | ok id =>
      rw [checkZone_of_lookup_ok rt c w name id h0 hl, checkZoneDetails_client]
      by_cases h1 : id = ""
      · rw [checkZone_of_lookup_ok rt { c with zoneID := id } w1 name id h1 hl,
          checkZoneDetails_client]
        exact ⟨checkZoneDetails_err_world rt _ _ _ name, rfl⟩
      · rw [checkZone_of_zoneID rt { c with zoneID := id } w1 name h1,
          checkZoneDetails_client]
        exact ⟨checkZoneDetails_err_world rt _ _ _ name, rfl⟩
  · rw [checkZone_of_zoneID rt c w name h0, checkZoneDetails_client,
      checkZone_of_zoneID rt c w1 name h0, checkZoneDetails_client]
    exact ⟨checkZoneDetails_err_world rt _ _ _ name, rfl⟩

/-- C8, at the failing input: `uploadRecords` returns success for a record map without
the name `stale.nodes.example.com`, and the TXT record of that name is still in the zone;
the call has made no request to the provider. -/
theorem uploadRecords_keeps_stale_record :
    (uploadRecords ⟨apiExample ["#zone:edit", "#zone:read"], "z1"⟩ worldExample
        "nodes.example.com" [("nodes.example.com", "enrtree-root:v2")]).1 = none ∧
    "stale.nodes.example.com" ∉
      ([("nodes.example.com", "enrtree-root:v2")] : List (String × String)).map Prod.fst ∧
    ("stale.nodes.example.com", "enr:old") ∈
      (uploadRecords ⟨apiExample ["#zone:edit", "#zone:read"], "z1"⟩ worldExample
        "nodes.example.com" [("nodes.example.com", "enrtree-root:v2")]).2.2.txt ∧
    (uploadRecords ⟨apiExample ["#zone:edit", "#zone:read"], "z1"⟩ worldExample
        "nodes.example.com" [("nodes.example.com", "enrtree-root:v2")]).2.2.trace
      = [Event.uploadRecords "nodes.example.com"
          [("nodes.example.com", "enrtree-root:v2")]] := by
  refine ⟨rfl, ?_, ?_, ?_⟩ <;> decide

/-- C9. The permission error names the missing capability: with the zone resolved to
`id` and the name accepted, a permission list that lacks the edit or the read marker
makes `checkZone` return an error whose message holds `id` and, for each marker that is
missing, the marker followed by `:false`. -/
theorem checkZone_permission_error_message (rt : GoRuntime) (c : cloudflareClient)
    (w : World) (name : String) (id : String) (z : Zone)
    (h : zoneIDAfterLookup c name = .ok id) (hz : c.API.ZoneDetails id = .ok z)
    (hs : HasSuffix name ("." ++ z.Name) = true)
    (hmiss : "#zone:edit" ∉ z.Permissions ∨ "#zone:read" ∉ z.Permissions) :
    ∃ msg : String, (checkZone rt c w name).1 = some ⟨msg⟩ ∧
      msg = "wrong permissions on zone " ++ id ++ ": map[#zone:edit:" ++
        fmtBool (decide ("#zone:edit" ∈ z.Permissions)) ++ " #zone:read:" ++
        fmtBool (decide ("#zone:read" ∈ z.Permissions)) ++ "]" ∧
      (∃ a b : String, msg = a ++ id ++ b) ∧
      ("#zone:edit" ∉ z.Permissions → ∃ a b : String, msg = a ++ "#zone:edit:false" ++ b) ∧
      ("#zone:read" ∉ z.Permissions →
        ∃ a b : String, msg = a ++ "#zone:read:false" ++ b) := by
  have hnot : ¬ ("#zone:edit" ∈ z.Permissions ∧ "#zone:read" ∈ z.Permissions) := by
    rintro ⟨h1, h2⟩
    rcases hmiss with h3 | h3
    · exact h3 h1
    · exact h3 h2
  refine ⟨_, ?_, rfl, ?_, ?_, ?_⟩
  · rw [checkZone_err_of_match rt c w name id z h hz hs, if_neg hnot]
    congr 1
    rw [← permissionError_msg]
  · exact ⟨"wrong permissions on zone ",
      ": map[#zone:edit:" ++ fmtBool (decide ("#zone:edit" ∈ z.Permissions)) ++
        " #zone:read:" ++ fmtBool (decide ("#zone:read" ∈ z.Permissions)) ++ "]",
      by simp only [String.append_assoc]⟩
  · intro he
    refine ⟨"wrong permissions on zone " ++ id ++ ": map[",
      " #zone:read:" ++ fmtBool (decide ("#zone:read" ∈ z.Permissions)) ++ "]", ?_⟩
    apply String.ext
    simp [he, fmtBool, String.data_append]
  · intro hr
    refine ⟨"wrong permissions on zone " ++ id ++ ": map[#zone:edit:" ++
      fmtBool (decide ("#zone:edit" ∈ z.Permissions)) ++ " ", "]", ?_⟩
    apply String.ext
    simp [hr, fmtBool, String.data_append]

/-- C9, at a credential that may read but not edit the zone `example.com`. -/
theorem checkZone_permission_error_message_witness :
    ∃ msg : String,
      (checkZone rtBackward ⟨apiExample ["#zone:read"], ""⟩ worldExample
        "nodes.example.com").1 = some ⟨msg⟩ ∧
      msg = "wrong permissions on zone " ++ "z1" ++ ": map[#zone:edit:" ++
        fmtBool (decide ("#zone:edit" ∈ ["#zone:read"])) ++ " #zone:read:" ++
        fmtBool (decide ("#zone:read" ∈ ["#zone:read"])) ++ "]" ∧
      (∃ a b : String, msg = a ++ "z1" ++ b) ∧
      ("#zone:edit" ∉ ["#zone:read"] → ∃ a b : String, msg = a ++ "#zone:edit:false" ++ b) ∧
      ("#zone:read" ∉ ["#zone:read"] →
        ∃ a b : String, msg = a ++ "#zone:read:false" ++ b) :=
  checkZone_permission_error_message rtBackward ⟨apiExample ["#zone:read"], ""⟩
    worldExample "nodes.example.com" "z1" ⟨"example.com", ["#zone:read"]⟩ rfl rfl
    (by decide) (Or.inl (by decide))

/-- C10. The outcome of `checkZone` depends on the permission list only through which
of the two markers it holds: two clients with the same zone identifier and the same
lookup, whose providers answer `ZoneDetails` alike up to permission lists that hold the
same of the two markers, get the same result (the same error message included), the same
zone identifier and the same world, in whatever order each runtime visits the map. -/
theorem checkZone_depends_on_grants_only (rt1 rt2 : GoRuntime) (c1 c2 : cloudflareClient)
    (w : World) (name : String) (hq : rt1.quote = rt2.quote)
    (hid : c1.zoneID = c2.zoneID) (hl : c1.API.ZoneIDByName = c2.API.ZoneIDByName)
    (hd : ∀ id, sameDetails (c1.API.ZoneDetails id) (c2.API.ZoneDetails id)) :
    (checkZone rt1 c1 w name).1 = (checkZone rt2 c2 w name).1 ∧
    (checkZone rt1 c1 w name).2.1.zoneID = (checkZone rt2 c2 w name).2.1.zoneID ∧
    (checkZone rt1 c1 w name).2.2 = (checkZone rt2 c2 w name).2.2 := by
  by_cases h0 : c1.zoneID = ""
  · have h0' : c2.zoneID = "" := hid ▸ h0
    cases hl1 : c1.API.ZoneIDByName name with
    | error e =>
      have hl2 : c2.API.ZoneIDByName name = .error e := by rw [← hl, hl1]
      rw [checkZone_of_lookup_error rt1 c1 w name e h0 hl1,
        checkZone_of_lookup_error rt2 c2 w name e h0' hl2]
      exact ⟨rfl, hid, rfl⟩
    | ok id =>
      have hl2 : c2.API.ZoneIDByName name = .ok id := by rw [← hl, hl1]
      rw [checkZone_of_lookup_ok rt1 c1 w name id h0 hl1,
        checkZone_of_lookup_ok rt2 c2 w name id h0' hl2]
      refine ⟨?_, ?_, ?_⟩
      · exact checkZoneDetails_err_congr rt1 rt2 _ _ _ _ name hq rfl (hd id)
      · rw [checkZoneDetails_client, checkZoneDetails_client]
      · rw [checkZoneDetails_world, checkZoneDetails_world]
  · have h0' : c2.zoneID ≠ "" := hid ▸ h0
    rw [checkZone_of_zoneID rt1 c1 w name h0, checkZone_of_zoneID rt2 c2 w name h0']
    refine ⟨?_, ?_, ?_⟩
    · exact checkZoneDetails_err_congr rt1 rt2 c1 c2 w w name hq hid
        (by rw [← hid]; exact hd c1.zoneID)
    · rw [checkZoneDetails_client, checkZoneDetails_client, hid]
    · rw [checkZoneDetails_world, checkZoneDetails_world, hid]

/-- C10, at two permission lists without the edit marker, in different orders, one with
a repeated and a foreign entry, and two runtimes that visit the map in opposite order. -/
theorem checkZone_depends_on_grants_only_witness :
    (checkZone rtForward ⟨apiExample ["#zone:read"], ""⟩ worldExample
        "nodes.example.com").1
      = (checkZone rtBackward ⟨apiExample ["#dns:edit", "#zone:read", "#zone:read"], ""⟩
          worldExample "nodes.example.com").1 ∧
    (checkZone rtForward ⟨apiExample ["#zone:read"], ""⟩ worldExample
        "nodes.example.com").2.1.zoneID
      = (checkZone rtBackward ⟨apiExample ["#dns:edit", "#zone:read", "#zone:read"], ""⟩
          worldExample "nodes.example.com").2.1.zoneID ∧
    (checkZone rtForward ⟨apiExample ["#zone:read"], ""⟩ worldExample
        "nodes.example.com").2.2
      = (checkZone rtBackward ⟨apiExample ["#dns:edit", "#zone:read", "#zone:read"], ""⟩
          worldExample "nodes.example.com").2.2 :=
  checkZone_depends_on_grants_only rtForward rtBackward ⟨apiExample ["#zone:read"], ""⟩
    ⟨apiExample ["#dns:edit", "#zone:read", "#zone:read"], ""⟩ worldExample
    "nodes.example.com" rfl rfl rfl
    (fun id => by
      by_cases hid : id = "z1"
      · simp [apiExample, hid, sameDetails, sameGrants]
      · simp [apiExample, hid, sameDetails])

end Cloudflare
